import Mathlib

/-!
  # Shallow embedding of the camera streaming server core

  Embeds `cm4_server/camera_server.py`: the per-feed adaptive
  capture/broadcast engine — the `CameraStream` class (its mutable
  attributes, the `capture_loop` with its adaptive-FPS governor and its
  placeholder fallback, `get_frame`, `get_stats`, `stop`) and the
  `generate_mjpeg` per-viewer broadcaster.

  Modelling conventions:

  * Wall-clock instants and durations are rationals (`ℚ`); Python floats
    carry no overflow semantics the claims depend on.
  * Python ints are `ℕ` (counters that the code only increments) or `ℤ`
    (the client counter, which the code also decrements).
  * The external collaborators — the Picamera2 capture capability and the
    PIL JPEG encoder — are opaque: a capture delivers an abstract raw
    content identifier, and `encode_jpeg` records the size and quality the
    code passes to `img.save` together with that content. What the loop
    does with the result is embedded exactly.
  * The `while self.running` loop is embedded as a step function over an
    explicit schedule of events: body iterations whose capture attempt
    succeeds or raises into the inner `except`, external `stop()` calls,
    and an exception escaping the body (the path that reaches the
    `finally` block early). The `finally` block and the early placeholder
    `return` are embedded as written.
-/

/-- `RESOLUTION = (1920, 1080)`. -/
def TARGET_RES : ℕ × ℕ := (1920, 1080)

/-- `TARGET_FPS = 10`. -/
def TARGET_FPS : ℕ := 10

/-- `MIN_FPS = 5`. -/
def MIN_FPS : ℕ := 5

/-- `JPEG_QUALITY = 80`. -/
def JPEG_QUALITY : ℕ := 80

/-- An encoded JPEG as the loop produces it: the image size and the
`quality` argument handed to `img.save`, plus an abstract identifier for
the raw pixel content that was encoded. -/
structure Jpeg where
  size : ℕ × ℕ
  quality : ℕ
  content : ℕ
  deriving DecidableEq, Repr

/-- `img.save(buffer, format='JPEG', quality=q)` on raw content of a given
size: the encoder is opaque, so the result records its inputs. -/
def encode_jpeg (content : ℕ) (size : ℕ × ℕ) (quality : ℕ) : Jpeg :=
  ⟨size, quality, content⟩

/-- Abstract content identifier for
`Image.new('RGB', RESOLUTION, color=(50, 50, 50))`. -/
def gray_content : ℕ := 50

/-- The JPEG `_create_placeholder_frame` builds: the gray image at the
target resolution, saved at quality 50. -/
def placeholder_jpeg : Jpeg := encode_jpeg gray_content TARGET_RES 50

/-- The mutable attributes of one `CameraStream` instance.  `picam` is
"`self.picam` is not `None`"; `cam_active` is "the capture capability is
open" (`picam.start()` ran and `picam.stop()` has not), which `picam.stop()`
in the `finally` block clears while leaving the `picam` attribute set. -/
structure CameraStream where
  camera_name : String
  frame : Option Jpeg
  picam : Bool
  cam_active : Bool
  running : Bool
  clients : ℤ
  fps : ℕ
  frame_count : ℕ
  start_time : ℚ
  last_frame_time : ℚ
  deriving DecidableEq, Repr

/-- `CameraStream.__init__` at construction instant `t0`. -/
def CameraStream.init (name : String) (t0 : ℚ) : CameraStream :=
  { camera_name := name
    frame := none
    picam := false
    cam_active := false
    running := false
    clients := 0
    fps := TARGET_FPS
    frame_count := 0
    start_time := t0
    last_frame_time := 0 }

/-- The adaptive-FPS pacing step at the bottom of `capture_loop`: from the
current `self.fps` and the measured `capture_time`, the updated `self.fps`
and the duration passed to `time.sleep` (0 when the `else` branch runs and
no sleep happens). -/
def governor_step (fps : ℕ) (capture_time : ℚ) : ℕ × ℚ :=
  let target_interval : ℚ := 1 / (fps : ℚ)
  let sleep_time : ℚ := max 0 (target_interval - capture_time)
  if 0 < sleep_time then
    (fps, sleep_time)
  else
    (if MIN_FPS < fps then max MIN_FPS (fps - 1) else fps, 0)

/-- One attempt of the capture body: either `capture_array` and the JPEG
encode succeed — with abstract raw content, measured cycle duration `d`
and wall clock `now` at the publish instant — or some step of the attempt
raises and the `except` branch runs, the attempt having taken `d`. -/
inductive CycleEvent
  | ok (content : ℕ) (d : ℚ) (now : ℚ)
  | fail (d : ℚ)
  deriving DecidableEq, Repr

/-- The `with self.lock` publish block: replace the frame, bump the
counter, stamp the time. -/
def publish (s : CameraStream) (j : Jpeg) (now : ℚ) : CameraStream :=
  { s with frame := some j, frame_count := s.frame_count + 1, last_frame_time := now }

/-- One iteration of the `while self.running` body: the new state and the
duration slept before the next top-of-loop check (`0.1` on the `except`
path, the governed sleep otherwise). -/
def capture_iter (s : CameraStream) : CycleEvent → CameraStream × ℚ
  | .ok content d now =>
      let j := encode_jpeg content TARGET_RES JPEG_QUALITY
      let s1 := publish s j now
      let g := governor_step s1.fps d
      ({ s1 with fps := g.1 }, g.2)
  | .fail _ => (s, 1 / 10)

/-- The iterations a live loop executes, in order. -/
def capture_run (s : CameraStream) (evs : List CycleEvent) : CameraStream :=
  evs.foldl (fun t e => (capture_iter t e).1) s

/-- `get_frame`: read the cached frame under the lock. -/
def get_frame (s : CameraStream) : Option Jpeg := s.frame

/-- Python's `round(x, 2)`: to two decimal places. -/
def round2 (q : ℚ) : ℚ := ((round (q * 100) : ℤ) : ℚ) / 100

/-- The dictionary `get_stats` returns, field for field. -/
structure CameraStats where
  camera : String
  clients : ℤ
  target_fps : ℕ
  actual_fps : ℚ
  frames_captured : ℕ
  running : Bool
  has_camera : Bool
  deriving DecidableEq, Repr

/-- `get_stats` at wall clock `now`. -/
def get_stats (s : CameraStream) (now : ℚ) : CameraStats :=
  let elapsed := now - s.start_time
  let actual_fps : ℚ := if 0 < elapsed then (s.frame_count : ℚ) / elapsed else 0
  { camera := s.camera_name
    clients := s.clients
    target_fps := s.fps
    actual_fps := round2 actual_fps
    frames_captured := s.frame_count
    running := s.running
    has_camera := s.picam }

/-- `stop`: clear the running flag. -/
def CameraStream.stop (s : CameraStream) : CameraStream := { s with running := false }

/-- Events interleaved with a live capture loop: an external `stop()`
call, one body iteration, or an exception raised by the body outside the
inner try/except (the unhandled per-cycle error path straight to
`finally`). -/
inductive LoopStep
  | extStop
  | iter (e : CycleEvent)
  | raiseErr
  deriving DecidableEq, Repr

/-- How the `while` loop ended: its condition went false, or an exception
escaped the body. -/
inductive ExitKind
  | normal
  | raised
  deriving DecidableEq, Repr

/-- The `finally` block: `if self.picam: self.picam.stop()` — closes the
capability, leaves every attribute (including `running`) as it was. -/
def release_cam (s : CameraStream) : CameraStream :=
  if s.picam then { s with cam_active := false } else s

/-- Runs the `while self.running` loop from `s` under a schedule of steps:
`some (s2, k)` when the loop ends — `s2` the state after the `finally`
block, `k` how the loop exited — and `none` when the schedule runs out
with the loop still live. -/
def run_from : CameraStream → List LoopStep → Option (CameraStream × ExitKind)
  | s, [] => if s.running then none else some (release_cam s, .normal)
  | s, .extStop :: rest => run_from { s with running := false } rest
  | s, .raiseErr :: _ =>
      if s.running then some (release_cam s, .raised)
      else some (release_cam s, .normal)
  | s, .iter e :: rest =>
      if s.running then run_from (capture_iter s e).1 rest
      else some (release_cam s, .normal)

/-- `_create_placeholder_frame`: publish the gray placeholder under the
lock — the frame slot only, no counter bump, no timestamp. -/
def create_placeholder (s : CameraStream) : CameraStream :=
  { s with frame := some placeholder_jpeg }

/-- `capture_loop` end to end: set `self.running = True`, initialize the
camera (outcome `init_ok`; on failure `initialize_camera` leaves
`self.picam = None`); a failure publishes the placeholder and returns
before the try/finally, a success runs the while loop under `steps`. -/
def capture_loop (s : CameraStream) (init_ok : Bool) (steps : List LoopStep) :
    Option (CameraStream × ExitKind) :=
  let s1 := { s with running := true }
  if init_ok then
    run_from { s1 with picam := true, cam_active := true } steps
  else
    some (create_placeholder { s1 with picam := false, cam_active := false }, .normal)

/-- The state `capture_loop` halts in when capability acquisition fails:
running flag set on entry, no capability, the placeholder published. -/
def degraded_state (name : String) (t0 : ℚ) : CameraStream :=
  create_placeholder
    { CameraStream.init name t0 with running := true, picam := false, cam_active := false }

/-- The client-counter touchpoints of `generate_mjpeg`: `clients += 1` on
entry, `clients -= 1` in its `finally`. -/
inductive ClientEvent
  | connect
  | disconnect
  deriving DecidableEq, Repr

/-- Effect of one broadcaster counter event on the feed. -/
def apply_client (s : CameraStream) : ClientEvent → CameraStream
  | .connect => { s with clients := s.clients + 1 }
  | .disconnect => { s with clients := s.clients - 1 }

/-- A feed after an interleaved trace of broadcaster connects and
disconnects. -/
def run_clients (s : CameraStream) (t : List ClientEvent) : CameraStream :=
  t.foldl apply_client s

/-- The frames one broadcaster emits over the feed states it observes: at
each poll it reads `get_frame`; `none` makes it sleep and retry with no
emission, otherwise it yields the frame in a multipart part. -/
def broadcast_emits (states : List CameraStream) : List Jpeg :=
  states.filterMap get_frame

/-- Publishing a whole list of (frame, instant) pairs in order. -/
def publish_all (s : CameraStream) (ps : List (Jpeg × ℚ)) : CameraStream :=
  ps.foldl (fun t p => publish t p.1 p.2) s

/-! ## Small facts about the governor and the loop body -/

/-- The governed rate never goes up in one step. -/
theorem governor_fps_le (fps : ℕ) (d : ℚ) : (governor_step fps d).1 ≤ fps := by
  simp only [governor_step]
  split
  · exact le_refl fps
  · split
    · omega
    · exact le_refl fps

/-- The governed rate never goes below `MIN_FPS` in one step. -/
theorem governor_fps_ge (fps : ℕ) (d : ℚ) (h : MIN_FPS ≤ fps) :
    MIN_FPS ≤ (governor_step fps d).1 := by
  simp only [governor_step]
  split
  · exact h
  · split
    · omega
    · exact h

/-- One body iteration never raises the rate. -/
theorem capture_iter_fps_le (s : CameraStream) (e : CycleEvent) :
    ((capture_iter s e).1).fps ≤ s.fps := by
  cases e with
  | ok c d now => exact governor_fps_le s.fps d
  | fail d => exact le_refl s.fps

/-- One body iteration keeps the rate at or above `MIN_FPS`. -/
theorem capture_iter_fps_ge (s : CameraStream) (e : CycleEvent) (h : MIN_FPS ≤ s.fps) :
    MIN_FPS ≤ ((capture_iter s e).1).fps := by
  cases e with
  | ok c d now => exact governor_fps_ge s.fps d h
  | fail d => exact h

/-- The body never touches `self.picam`. -/
theorem capture_iter_picam (s : CameraStream) (e : CycleEvent) :
    ((capture_iter s e).1).picam = s.picam := by
  cases e <;> rfl

/-- The body never touches `self.running`. -/
theorem capture_iter_running (s : CameraStream) (e : CycleEvent) :
    ((capture_iter s e).1).running = s.running := by
  cases e <;> rfl

/-- Folding one more publish on the right. -/
theorem publish_all_concat (s : CameraStream) (ps : List (Jpeg × ℚ)) (p : Jpeg × ℚ) :
    publish_all s (ps ++ [p]) = publish (publish_all s ps) p.1 p.2 := by
  simp [publish_all, List.foldl_append]

/-- After a non-empty publish sequence the cache holds the last frame. -/
theorem get_frame_publish_all (s : CameraStream) (ps : List (Jpeg × ℚ)) (hne : ps ≠ []) :
    get_frame (publish_all s ps) = (ps.getLast?).map Prod.fst := by
  induction ps using List.reverseRecOn with
  | nil => exact absurd rfl hne
  | append_singleton qs p ih =>
      rw [publish_all_concat]
      simp [publish, get_frame, List.getLast?_concat]

/-! ## Claim theorems -/

/-- An on-time cycle: the governor keeps the rate and sleeps the gap. -/
theorem governor_step_fast (fps : ℕ) (d : ℚ) (hd : d < 1 / (fps : ℚ)) :
    governor_step fps d = (fps, 1 / (fps : ℚ) - d) := by
  have h1 : max 0 (1 / (fps : ℚ) - d) = 1 / (fps : ℚ) - d :=
    max_eq_right (by linarith)
  simp only [governor_step]
  rw [h1, if_pos (by linarith)]

/-- A late cycle: the governor decrements (clamped) and sleeps 0. -/
theorem governor_step_behind (fps : ℕ) (d : ℚ) (h : MIN_FPS ≤ fps)
    (hd : 1 / (fps : ℚ) ≤ d) :
    governor_step fps d = (max MIN_FPS (fps - 1), 0) := by
  have h1 : max 0 (1 / (fps : ℚ) - d) = 0 := max_eq_left (by linarith)
  simp only [governor_step]
  rw [h1, if_neg (lt_irrefl 0)]
  rcases Nat.lt_or_ge MIN_FPS fps with hc | hc
  · rw [if_pos hc]
  · rw [if_neg (Nat.not_lt.mpr hc)]
    congr 1
    omega

/-- Claim C1: the rate-governor step — for a cycle of measured duration
`d` against the current rate `fps`, if `d < 1/fps` the loop sleeps
`1/fps − d` and keeps the rate; if `d ≥ 1/fps` it decrements the rate by
one, clamped at `MIN_FPS`, and sleeps 0; at `d` = 150 ms and rate 10 the
result is rate 9 with no sleep. -/
theorem governor_rate_step (fps : ℕ) (d : ℚ) (h : MIN_FPS ≤ fps) :
    (d < 1 / (fps : ℚ) → governor_step fps d = (fps, 1 / (fps : ℚ) - d)) ∧
    (1 / (fps : ℚ) ≤ d → governor_step fps d = (max MIN_FPS (fps - 1), 0)) ∧
    governor_step 10 (150 / 1000) = (9, 0) := by
  refine ⟨governor_step_fast fps d, governor_step_behind fps d h, ?_⟩
  rw [governor_step_behind 10 (150 / 1000) (by decide) (by norm_num)]
  decide

/-- Witness for C1 at rate 10 and duration 150 ms. -/
theorem governor_rate_step_witness : governor_step 10 (150 / 1000) = (9, 0) :=
  (governor_rate_step 10 (150 / 1000) (by decide)).2.2

/-- Claim C4: the frame cache — a fresh feed reads the `None` sentinel;
after any publish sequence the read is exactly the last published frame
(`None` iff nothing was ever published), and one publish replaces the
frame wholesale together with its timestamp. -/
theorem frame_cache_contract (name : String) (t0 now : ℚ) (s : CameraStream)
    (ps : List (Jpeg × ℚ)) (j : Jpeg) :
    get_frame (publish_all (CameraStream.init name t0) ps)
        = (ps.getLast?).map Prod.fst ∧
    (get_frame (publish_all (CameraStream.init name t0) ps) = none ↔ ps = []) ∧
    (publish s j now).frame = some j ∧
    (publish s j now).last_frame_time = now := by
  have hmain : get_frame (publish_all (CameraStream.init name t0) ps)
      = (ps.getLast?).map Prod.fst := by
    rcases eq_or_ne ps [] with hps | hps
    · subst hps; rfl
    · exact get_frame_publish_all _ _ hps
  refine ⟨hmain, ?_, rfl, rfl⟩
  rw [hmain]
  simp [List.getLast?_eq_none_iff]

/-- Claim C5: a transient capture/encode failure leaves the state exactly
as it was, takes the fixed 0.1 s backoff, is survived any number of
consecutive times, and the live loop simply continues past it. -/
theorem transient_error_nonfatal (s : CameraStream) (d : ℚ) (n : ℕ)
    (rest : List LoopStep) (hrun : s.running = true) :
    capture_iter s (CycleEvent.fail d) = (s, 1 / 10) ∧
    capture_run s (List.replicate n (CycleEvent.fail d)) = s ∧
    run_from s (LoopStep.iter (CycleEvent.fail d) :: rest) = run_from s rest := by
  refine ⟨rfl, ?_, ?_⟩
  · induction n with
    | zero => rfl
    | succ k ih => simpa [capture_run, List.replicate_succ, capture_iter] using ih
  · simp [run_from, hrun, capture_iter]

/-- Witness for C5 on a live fresh feed. -/
theorem transient_error_nonfatal_witness :
    capture_iter { CameraStream.init "left" 0 with running := true } (CycleEvent.fail 1)
        = ({ CameraStream.init "left" 0 with running := true }, 1 / 10) ∧
    capture_run { CameraStream.init "left" 0 with running := true }
        (List.replicate 3 (CycleEvent.fail 1))
        = { CameraStream.init "left" 0 with running := true } ∧
    run_from { CameraStream.init "left" 0 with running := true }
        (LoopStep.iter (CycleEvent.fail 1) :: [])
        = run_from { CameraStream.init "left" 0 with running := true } [] :=
  transient_error_nonfatal { CameraStream.init "left" 0 with running := true } 1 3 [] rfl

/-- Claim C9: error atomicity of a cycle — a failed cycle leaves the
cached frame, the frame counter and the last-frame timestamp untouched,
and a successful cycle publishes the fully encoded JPEG in one locked
step. -/
theorem failed_cycle_atomic (s : CameraStream) (c : ℕ) (d d2 now : ℚ) :
    ((capture_iter s (CycleEvent.fail d)).1).frame = s.frame ∧
    ((capture_iter s (CycleEvent.fail d)).1).frame_count = s.frame_count ∧
    ((capture_iter s (CycleEvent.fail d)).1).last_frame_time = s.last_frame_time ∧
    ((capture_iter s (CycleEvent.ok c d2 now)).1).frame
        = some (encode_jpeg c TARGET_RES JPEG_QUALITY) :=
  ⟨rfl, rfl, rfl, rfl⟩

/-- Claim C10: a failed cycle never ratchets the rate — the governor is
reached only after a successful publish, so the rate and the whole
post-cycle state are the same whatever duration the failed cycle took. -/
theorem failed_cycle_keeps_rate (s : CameraStream) (d d2 : ℚ) :
    ((capture_iter s (CycleEvent.fail d)).1).fps = s.fps ∧
    (capture_iter s (CycleEvent.fail d)).2 = 1 / 10 ∧
    (capture_iter s (CycleEvent.fail d)).1 = (capture_iter s (CycleEvent.fail d2)).1 :=
  ⟨rfl, rfl, rfl⟩

/-- Along any executed run of live iterations the rate stays at or above
`MIN_FPS` and never increases. -/
theorem capture_run_fps (evs : List CycleEvent) :
    ∀ s : CameraStream, MIN_FPS ≤ s.fps →
      MIN_FPS ≤ (capture_run s evs).fps ∧ (capture_run s evs).fps ≤ s.fps := by
  induction evs with
  | nil => exact fun s h => ⟨h, le_refl _⟩
  | cons e es ih =>
      intro s h
      obtain ⟨h1, h2⟩ := ih (capture_iter s e).1 (capture_iter_fps_ge s e h)
      exact ⟨h1, le_trans h2 (capture_iter_fps_le s e)⟩

/-- Claim C3: the rate ratchet — the rate is initialized to `TARGET_FPS`,
and along any executed run of the live loop it stays within
`[MIN_FPS, TARGET_FPS]` and is monotonically non-increasing. -/
theorem rate_ratchet (name : String) (t0 : ℚ) (s : CameraStream)
    (evs : List CycleEvent) (hlo : MIN_FPS ≤ s.fps) (hhi : s.fps ≤ TARGET_FPS) :
    (CameraStream.init name t0).fps = TARGET_FPS ∧
    MIN_FPS ≤ (capture_run s evs).fps ∧
    (capture_run s evs).fps ≤ TARGET_FPS ∧
    (capture_run s evs).fps ≤ s.fps := by
  obtain ⟨h1, h2⟩ := capture_run_fps evs s hlo
  exact ⟨rfl, h1, le_trans h2 hhi, h2⟩

/-- Witness for C3 on a fresh feed and one late cycle. -/
theorem rate_ratchet_witness :
    (CameraStream.init "left" 0).fps = TARGET_FPS ∧
    MIN_FPS ≤ (capture_run (CameraStream.init "left" 0) [CycleEvent.fail 1]).fps ∧
    (capture_run (CameraStream.init "left" 0) [CycleEvent.fail 1]).fps ≤ TARGET_FPS ∧
    (capture_run (CameraStream.init "left" 0) [CycleEvent.fail 1]).fps
        ≤ (CameraStream.init "left" 0).fps :=
  rate_ratchet "left" 0 (CameraStream.init "left" 0) [CycleEvent.fail 1]
    (by decide) (by decide)

/-- Every exit of the streaming while-loop has run the `finally` block:
with the camera handle set, the capability ends closed, and a normal exit
(condition observed false) ends with the running flag cleared. -/
theorem run_from_cleanup (steps : List LoopStep) :
    ∀ (s s2 : CameraStream) (k : ExitKind), s.picam = true →
      run_from s steps = some (s2, k) →
      s2.cam_active = false ∧ (k = ExitKind.normal → s2.running = false) := by
  induction steps with
  | nil =>
      intro s s2 k hp h
      simp only [run_from] at h
      split at h
      · exact Option.noConfusion h
      · rename_i hr
        simp only [Option.some.injEq, Prod.mk.injEq] at h
        obtain ⟨rfl, rfl⟩ := h
        refine ⟨by simp [release_cam, hp], fun _ => ?_⟩
        simp only [Bool.not_eq_true] at hr
        simp [release_cam, hp, hr]
  | cons stp rest ih =>
      intro s s2 k hp h
      cases stp with
      | extStop => exact ih { s with running := false } s2 k hp h
      | raiseErr =>
          simp only [run_from] at h
          split at h
          · simp only [Option.some.injEq, Prod.mk.injEq] at h
            obtain ⟨rfl, rfl⟩ := h
            exact ⟨by simp [release_cam, hp], fun hk => ExitKind.noConfusion hk⟩
          · rename_i hr
            simp only [Option.some.injEq, Prod.mk.injEq] at h
            obtain ⟨rfl, rfl⟩ := h
            refine ⟨by simp [release_cam, hp], fun _ => ?_⟩
            simp only [Bool.not_eq_true] at hr
            simp [release_cam, hp, hr]
      | iter e =>
          simp only [run_from] at h
          split at h
          · exact ih (capture_iter s e).1 s2 k (by rw [capture_iter_picam]; exact hp) h
          · rename_i hr
            simp only [Option.some.injEq, Prod.mk.injEq] at h
            obtain ⟨rfl, rfl⟩ := h
            refine ⟨by simp [release_cam, hp], fun _ => ?_⟩
            simp only [Bool.not_eq_true] at hr
            simp [release_cam, hp, hr]

/-- Claim C6 (amended): every exit of the streaming capture loop has
released the capture capability before the task ends, and an exit through
the stop signal (the while-condition observed false) also ends with
`running = false`; an exit through an unhandled per-cycle error leaves
`running` as it was. -/
theorem loop_exit_cleanup (s s2 : CameraStream) (steps : List LoopStep) (k : ExitKind)
    (h : capture_loop s true steps = some (s2, k)) :
    s2.cam_active = false ∧ (k = ExitKind.normal → s2.running = false) :=
  run_from_cleanup steps
    { s with running := true, picam := true, cam_active := true } s2 k rfl h

/-- Witness for C6 on a fresh feed stopped right away. -/
theorem loop_exit_cleanup_witness :
    ({ camera_name := "left", frame := none, picam := true, cam_active := false,
       running := false, clients := 0, fps := TARGET_FPS, frame_count := 0,
       start_time := 0, last_frame_time := 0 } : CameraStream).cam_active = false ∧
    (ExitKind.normal = ExitKind.normal →
      ({ camera_name := "left", frame := none, picam := true, cam_active := false,
         running := false, clients := 0, fps := TARGET_FPS, frame_count := 0,
         start_time := 0, last_frame_time := 0 } : CameraStream).running = false) :=
  loop_exit_cleanup (CameraStream.init "left" 0) _ [LoopStep.extStop] ExitKind.normal rfl

/-- Claim C6 counterexample: a live loop exiting through an unhandled
per-cycle error releases the capability but leaves `running = true`, so
the loop does not set `running = false` on every exit path. -/
theorem loop_raise_running_cex :
    (capture_loop (CameraStream.init "left" 0) true [LoopStep.raiseErr]).map
        (fun p => (p.1.running, p.1.cam_active, p.2))
      = some (true, false, ExitKind.raised) := rfl

/-- Claim C2 counterexample: after a failed capability acquisition the
halted feed reports `running = true` and `frame_count` stalled at 0 — not
`running = false` with `frame_count` 1 as claimed. -/
theorem degraded_flags_cex :
    (capture_loop (CameraStream.init "left" 0) false []).map
        (fun p => ((get_stats p.1 1).running, (get_stats p.1 1).frames_captured))
      = some (true, 0) := rfl

/-- Claim C2 (amended): when capability acquisition fails at startup the
feed publishes exactly one static placeholder frame — target resolution,
fixed lower quality 50 — and halts its loop with no capability open;
stats from then on report `has_camera = false`, `running = true` (the
flag set on loop entry is never cleared on this path) and `frame_count`
stalled at 0, and a broadcaster that only ever observes the halted feed
emits that one placeholder frame at every poll. -/
theorem degraded_branch (name : String) (t0 now : ℚ) (steps : List LoopStep)
    (states : List CameraStream)
    (hs : ∀ u ∈ states, u = degraded_state name t0) :
    capture_loop (CameraStream.init name t0) false steps
        = some (degraded_state name t0, ExitKind.normal) ∧
    get_frame (degraded_state name t0) = some placeholder_jpeg ∧
    placeholder_jpeg.size = TARGET_RES ∧
    placeholder_jpeg.quality = 50 ∧
    placeholder_jpeg.quality < JPEG_QUALITY ∧
    (degraded_state name t0).cam_active = false ∧
    (get_stats (degraded_state name t0) now).has_camera = false ∧
    (get_stats (degraded_state name t0) now).running = true ∧
    (get_stats (degraded_state name t0) now).frames_captured = 0 ∧
    broadcast_emits states = List.replicate states.length placeholder_jpeg := by
  refine ⟨rfl, rfl, rfl, rfl, by decide, rfl, rfl, rfl, rfl, ?_⟩
  induction states with
  | nil => rfl
  | cons u us ih =>
      have hu : u = degraded_state name t0 := hs u (by simp)
      have h2 := ih (fun v hv => hs v (by simp [hv]))
      subst hu
      calc broadcast_emits (degraded_state name t0 :: us)
          = placeholder_jpeg :: broadcast_emits us := rfl
        _ = placeholder_jpeg :: List.replicate us.length placeholder_jpeg := by rw [h2]
        _ = List.replicate (degraded_state name t0 :: us).length placeholder_jpeg := by
              rw [List.length_cons, List.replicate_succ]

/-- Witness for C2 (amended) on the left feed observed once. -/
theorem degraded_branch_witness :
    capture_loop (CameraStream.init "left" 0) false []
        = some (degraded_state "left" 0, ExitKind.normal) ∧
    get_frame (degraded_state "left" 0) = some placeholder_jpeg ∧
    placeholder_jpeg.size = TARGET_RES ∧
    placeholder_jpeg.quality = 50 ∧
    placeholder_jpeg.quality < JPEG_QUALITY ∧
    (degraded_state "left" 0).cam_active = false ∧
    (get_stats (degraded_state "left" 0) 1).has_camera = false ∧
    (get_stats (degraded_state "left" 0) 1).running = true ∧
    (get_stats (degraded_state "left" 0) 1).frames_captured = 0 ∧
    broadcast_emits [degraded_state "left" 0]
        = List.replicate [degraded_state "left" 0].length placeholder_jpeg :=
  degraded_branch "left" 0 1 [] [degraded_state "left" 0] (by simp)

/-- Claim C7: `get_stats` is a pure snapshot — its value is exactly the
seven-field record read off the state, with
`actual_fps = round2 (frame_count / elapsed)` and 0 when `elapsed` is not
positive, and two calls with no new captures in between see
non-decreasing elapsed time and the same frame count. -/
theorem stats_pure_snapshot (s : CameraStream) (n1 n2 : ℚ) (h : n1 ≤ n2) :
    get_stats s n1 =
      { camera := s.camera_name
        clients := s.clients
        target_fps := s.fps
        actual_fps := round2 (if 0 < n1 - s.start_time
            then (s.frame_count : ℚ) / (n1 - s.start_time) else 0)
        frames_captured := s.frame_count
        running := s.running
        has_camera := s.picam } ∧
    n1 - s.start_time ≤ n2 - s.start_time ∧
    (get_stats s n1).frames_captured = (get_stats s n2).frames_captured :=
  ⟨rfl, by linarith, rfl⟩

/-- Witness for C7 on a fresh feed at instants 1 and 2. -/
theorem stats_pure_snapshot_witness :
    get_stats (CameraStream.init "left" 0) 1 =
      { camera := "left", clients := 0, target_fps := 10, actual_fps := 0,
        frames_captured := 0, running := false, has_camera := false } ∧
    (1 : ℚ) - (CameraStream.init "left" 0).start_time
        ≤ 2 - (CameraStream.init "left" 0).start_time ∧
    (get_stats (CameraStream.init "left" 0) 1).frames_captured
        = (get_stats (CameraStream.init "left" 0) 2).frames_captured := by
  have h := stats_pure_snapshot (CameraStream.init "left" 0) 1 2 (by norm_num)
  refine ⟨?_, h.2.1, h.2.2⟩
  rw [h.1]
  norm_num [CameraStream.init, TARGET_FPS, round2]

/-- The client counter after a trace is the start value plus connects
minus disconnects. -/
theorem run_clients_count (t : List ClientEvent) :
    ∀ s : CameraStream, (run_clients s t).clients
      = s.clients + (t.count ClientEvent.connect : ℤ)
          - (t.count ClientEvent.disconnect : ℤ) := by
  induction t with
  | nil => intro s; simp [run_clients]
  | cons e es ih =>
      intro s
      cases e with
      | connect =>
          rw [show run_clients s (ClientEvent.connect :: es)
                = run_clients { s with clients := s.clients + 1 } es from rfl, ih,
              List.count_cons_self,
              List.count_cons_of_ne (by decide : ClientEvent.disconnect ≠ ClientEvent.connect)]
          push_cast
          ring
      | disconnect =>
          rw [show run_clients s (ClientEvent.disconnect :: es)
                = run_clients { s with clients := s.clients - 1 } es from rfl, ih,
              List.count_cons_self,
              List.count_cons_of_ne (by decide : ClientEvent.connect ≠ ClientEvent.disconnect)]
          push_cast
          ring

/-- Claim C8: the client counter — each broadcaster bumps it by exactly
one on connect and drops it by exactly one on disconnect (touching no
other feed state), so from 0 it ends at connects minus disconnects, and
along any interleaving whose every prefix has at least as many connects
as disconnects it never goes negative. -/
theorem client_counter_interleaving (s u : CameraStream) (t : List ClientEvent) (n : ℕ)
    (h0 : s.clients = 0)
    (hwf : ∀ m : ℕ, ((t.take m).count ClientEvent.disconnect)
        ≤ ((t.take m).count ClientEvent.connect)) :
    (run_clients s t).clients
        = (t.count ClientEvent.connect : ℤ) - (t.count ClientEvent.disconnect : ℤ) ∧
    0 ≤ (run_clients s (t.take n)).clients ∧
    (apply_client u ClientEvent.connect).clients = u.clients + 1 ∧
    (apply_client u ClientEvent.disconnect).clients = u.clients - 1 ∧
    apply_client u ClientEvent.disconnect = { u with clients := u.clients - 1 } := by
  refine ⟨?_, ?_, rfl, rfl, rfl⟩
  · rw [run_clients_count, h0]; ring
  · rw [run_clients_count, h0]
    have := hwf n
    omega

/-- Witness for C8 on two connects followed by one disconnect. -/
theorem client_counter_interleaving_witness :
    (run_clients (CameraStream.init "left" 0)
        [ClientEvent.connect, ClientEvent.connect, ClientEvent.disconnect]).clients = 1 ∧
    0 ≤ (run_clients (CameraStream.init "left" 0)
        ([ClientEvent.connect, ClientEvent.connect, ClientEvent.disconnect].take 2)).clients := by
  have hwf : ∀ m : ℕ,
      (([ClientEvent.connect, ClientEvent.connect, ClientEvent.disconnect].take m).count
          ClientEvent.disconnect)
        ≤ (([ClientEvent.connect, ClientEvent.connect, ClientEvent.disconnect].take m).count
          ClientEvent.connect) := by
    intro m
    match m with
    | 0 => decide
    | 1 => decide
    | 2 => decide
    | (k + 3) =>
        rw [List.take_of_length_le (by simp)]
        decide
  have h := client_counter_interleaving (CameraStream.init "left" 0)
      (CameraStream.init "left" 0)
      [ClientEvent.connect, ClientEvent.connect, ClientEvent.disconnect] 2 rfl hwf
  refine ⟨?_, h.2.1⟩
  rw [h.1]
  decide
